import Mathlib

/-!
Verification of the rudder-server router subsystem specification against a
shallow embedding of the Go source.

The embedding covers:
* `jobsdb` — the job / job-status data model and the per-customer queue
  dispatch of `datamanager.go`;
* `stash` — the processor error stash (`processor/stash/stash.go`):
  the read loop, the upload filename construction and the status updates;
* `manager` — the router lifecycle manager
  (`router/manager/manager.go`): config-driven startup of router and
  batch-router instances with crash recovery;
* `router` — the expired-job drain decision of the router pickup path
  (modelled from the spec, since only the router's tests are among the
  source files).

Go machine integers (`int`, `int64`) are embedded as `Int`; none of the
verified properties involve overflow.  Go strings are Lean `String`s.
-/

namespace jobsdb

/-- Job states, as the `State` strings of `jobsdb`'s state constants
(`jobsdb.Executing.State` etc.). -/
def Executing : String := "executing"

def Succeeded : String := "succeeded"

def Failed : String := "failed"

def Aborted : String := "aborted"

def Waiting : String := "waiting"

/-- `jobsdb.JobStatusT` — an append-only row describing a job's most recent
outcome.  `ExecTime`/`RetryTime` are unix timestamps. -/
structure JobStatusT where
  jobID : Int
  attemptNum : Int
  jobState : String
  execTime : Int
  retryTime : Int
  errorCode : String
  errorResponse : String
  parameters : String
  workspaceId : String
  deriving Repr, DecidableEq

/-- `jobsdb.JobT` — an immutable unit of work (the fields the verified code
reads).  `createdAtUnix` stands for `CreatedAt` as a unix timestamp. -/
structure JobT where
  jobID : Int
  userID : String
  customVal : String
  workspaceId : String
  customer : String
  createdAtUnix : Int
  lastJobStatus : JobStatusT
  deriving Repr, DecidableEq

end jobsdb

namespace stash

open jobsdb

/-- `stash.StoreErrorOutputT` — outcome of one object-storage upload.
`error = none` embeds a `nil` Go error. -/
structure StoreErrorOutputT where
  location : String
  error : Option String
  deriving Repr, DecidableEq

/-- The status row `setErrJobStatus` builds for one job, given the upload
outcome (`stash.go`, the loop body of `setErrJobStatus`).  `now` is the
time both `ExecTime` and `RetryTime` receive. -/
def setErrJobStatusFor (maxFailedCountForErrJob : Int) (now : Int)
    (output : StoreErrorOutputT) (job : JobT) : JobStatusT :=
  let state :=
    match output.error with
    | none => Succeeded
    | some _ =>
      if job.lastJobStatus.attemptNum ≥ maxFailedCountForErrJob then Aborted
      else Failed
  let errorResp :=
    match output.error with
    | none => "\x7b\"success\":\"OK\"\x7d"
    | some e => "\x7b\"Error\":\"" ++ e ++ "\"\x7d"
  { jobID := job.jobID
    attemptNum := job.lastJobStatus.attemptNum + 1
    jobState := state
    execTime := now
    retryTime := now
    errorCode := ""
    errorResponse := errorResp
    parameters := "\x7b\x7d"
    workspaceId := job.workspaceId }

/-- `stash.setErrJobStatus` — the status list written after an upload
attempt for a batch of error-stash jobs. -/
def setErrJobStatus (maxFailedCountForErrJob : Int) (now : Int)
    (jobs : List JobT) (output : StoreErrorOutputT) : List JobStatusT :=
  jobs.map (setErrJobStatusFor maxFailedCountForErrJob now output)

/-- The status row `readErrJobsLoop` builds for one job read from the
`proc_error` queue (`stash.go`, loop over `combinedList`): `Executing`
when upload is possible, `Aborted` when it is not or when the job's
source is transient. -/
def readErrJobStatusFor (canUpload : Bool) (transientApply : JobT → Bool)
    (now : Int) (job : JobT) : JobStatusT :=
  let jobState := if canUpload then Executing else Aborted
  let status : JobStatusT :=
    { jobID := job.jobID
      attemptNum := job.lastJobStatus.attemptNum + 1
      jobState := jobState
      execTime := now
      retryTime := now
      errorCode := ""
      errorResponse := "\x7b\x7d"
      parameters := "\x7b\x7d"
      workspaceId := job.workspaceId }
  if canUpload && transientApply job then { status with jobState := Aborted }
  else status

/-- The status list one iteration of `readErrJobsLoop` writes for the jobs
it read. -/
def readErrJobsTickStatuses (canUpload : Bool) (transientApply : JobT → Bool)
    (now : Int) (combinedList : List JobT) : List JobStatusT :=
  combinedList.map (readErrJobStatusFor canUpload transientApply now)

/-- `filteredJobList` as computed by one iteration of `readErrJobsLoop`:
everything when upload is impossible (those jobs are aborted, not sent),
otherwise the non-transient jobs. -/
def readErrJobsTickFiltered (canUpload : Bool) (transientApply : JobT → Bool)
    (combinedList : List JobT) : List JobT :=
  if !canUpload then combinedList
  else combinedList.filter (fun job => !transientApply job)

/-- The batch one iteration of `readErrJobsLoop` sends on `errProcessQ`,
if any: only when upload is possible and the filtered list is non-empty
(`if canUpload && len(filteredJobList) > 0`). -/
def readErrJobsTickSent (canUpload : Bool) (transientApply : JobT → Bool)
    (combinedList : List JobT) : Option (List JobT) :=
  let filteredJobList := readErrJobsTickFiltered canUpload transientApply combinedList
  if canUpload && filteredJobList.length > 0 then some filteredJobList else none

/-- `localTmpDirName` of `storeErrorsToObjectStorage`. -/
def localTmpDirName : String := "/rudder-processor-errors/"

/-- The `path` variable of `storeErrorsToObjectStorage`:
`fmt.Sprintf("%v%v.json", tmpDirPath+localTmpDirName,
fmt.Sprintf("%v.%v.%v.%v", time.Now().Unix(), INSTANCE_ID,
fmt.Sprintf("%v-%v", jobs[0].JobID, jobs[len(jobs)-1].JobID), uuid))`. -/
def storeErrorsPath (tmpDirPath : String) (nowUnix : Int) (instanceID : String)
    (firstJobID lastJobID : Int) (uuid : String) : String :=
  (tmpDirPath ++ localTmpDirName) ++
    (toString nowUnix ++ "." ++ instanceID ++ "." ++
      (toString firstJobID ++ "-" ++ toString lastJobID) ++ "." ++ uuid) ++
    ".json"

/-- The `gzipFilePath` variable of `storeErrorsToObjectStorage`:
`fmt.Sprintf("%v.gz", path)`.  The file written at this path goes through
`misc.CreateGZ`, i.e. it is gzip-compressed. -/
def storeErrorsGzipPath (tmpDirPath : String) (nowUnix : Int) (instanceID : String)
    (firstJobID lastJobID : Int) (uuid : String) : String :=
  storeErrorsPath tmpDirPath nowUnix instanceID firstJobID lastJobID uuid ++ ".gz"

/-- The filename schema as the spec words it:
`ts.instance.firstId-lastId.uuid.json.gz` (second definition for the
refinement comparison, following the spec's words). -/
def fileNameSchemaSpec (ts instanceID firstId lastId uuid : String) : String :=
  ts ++ "." ++ instanceID ++ "." ++ firstId ++ "-" ++ lastId ++ "." ++ uuid ++ ".json.gz"

/-- `storeErrorsToObjectStorage`'s gzip path for a batch of jobs, reading
`jobs[0].JobID` and `jobs[len(jobs)-1].JobID`.  A `none` result embeds the
index-out-of-range panic the Go code would hit on an empty batch. -/
def storeErrorsGzipPathOfJobs (tmpDirPath : String) (nowUnix : Int)
    (instanceID : String) (uuid : String) (jobs : List JobT) : Option String :=
  match jobs.head?, jobs.getLast? with
  | some j0, some jn =>
    some (storeErrorsGzipPath tmpDirPath nowUnix instanceID j0.jobID jn.jobID uuid)
  | _, _ => none

end stash

namespace manager

/-- `backendconfig.DestinationDefinitionT` (the field the manager reads). -/
structure DestinationDefinitionT where
  name : String
  deriving Repr, DecidableEq

/-- `backendconfig.DestinationT` (the fields the manager reads; `enabled`
is carried to settle the enabled-destination claims). -/
structure DestinationT where
  destinationDefinition : DestinationDefinitionT
  enabled : Bool
  deriving Repr, DecidableEq

/-- `backendconfig.SourceT` (the fields the manager reads). -/
structure SourceT where
  enabled : Bool
  destinations : List DestinationT
  deriving Repr, DecidableEq

/-- `backendconfig.ConfigT` — one backend-config event. -/
structure ConfigT where
  sources : List SourceT
  deriving Repr, DecidableEq

/-- `objectStorageDestinations` of `router/manager/manager.go`. -/
def objectStorageDestinations : List String :=
  ["S3", "GCS", "AZURE_BLOB", "MINIO", "DIGITAL_OCEAN_SPACES"]

/-- `asyncDestinations` of `router/manager/manager.go`. -/
def asyncDestinations : List String := ["MARKETO_BULK_UPLOAD"]

/-- `warehouseDestinations` of `router/manager/manager.go`. -/
def warehouseDestinations : List String :=
  ["RS", "BQ", "SNOWFLAKE", "POSTGRES", "CLICKHOUSE", "MSSQL", "AZURE_SYNAPSE",
    "S3_DATALAKE", "GCS_DATALAKE", "AZURE_DATALAKE", "DELTALAKE"]

/-- `misc.ContainsString`. -/
def containsString (slice : List String) (s : String) : Bool := slice.contains s

/-- The batch-router condition of `monitorDestRouters`:
`ContainsString(objectStorageDestinations, name) ||
ContainsString(warehouseDestinations, name) ||
ContainsString(asyncDestinations, name)`. -/
def isBatchDestination (name : String) : Bool :=
  containsString objectStorageDestinations name ||
    containsString warehouseDestinations name ||
    containsString asyncDestinations name

/-- Which flavor of router instance was started. -/
inductive RouterFlavor where
  | std
  | batch
  deriving Repr, DecidableEq

/-- A `Start()` of a router or batch-router instance for a destination
definition name. -/
structure StartEvent where
  name : String
  flavor : RouterFlavor
  deriving Repr, DecidableEq

/-- The mutable state of `monitorDestRouters`: the key sets of the
`dstToRouter` / `dstToBatchRouter` maps, plus the ordered trace of
started instances. -/
structure ManagerState where
  dstToRouter : List String
  dstToBatchRouter : List String
  startedEvents : List StartEvent
  deriving Repr, DecidableEq

/-- `monitorDestRouters`'s state right after the two crash-recovery calls:
both maps empty, nothing started. -/
def initialManagerState : ManagerState := ⟨[], [], []⟩

/-- The body of `monitorDestRouters`'s inner destination loop: start a new
batch router (resp. router) if the definition name is a batch destination
(resp. not) and no instance for that name exists yet.  The `enabled` flag
of the destination is never consulted by the source. -/
def processDestination (st : ManagerState) (destination : DestinationT) : ManagerState :=
  let name := destination.destinationDefinition.name
  if isBatchDestination name then
    if st.dstToBatchRouter.contains name then st
    else
      { st with
        dstToBatchRouter := name :: st.dstToBatchRouter
        startedEvents := st.startedEvents ++ [⟨name, RouterFlavor.batch⟩] }
  else
    if st.dstToRouter.contains name then st
    else
      { st with
        dstToRouter := name :: st.dstToRouter
        startedEvents := st.startedEvents ++ [⟨name, RouterFlavor.std⟩] }

/-- The loop over `source.Destinations`. -/
def processSource (st : ManagerState) (source : SourceT) : ManagerState :=
  source.destinations.foldl processDestination st

/-- The loop over `sources.Sources` for one config event. -/
def processConfig (st : ManagerState) (config : ConfigT) : ManagerState :=
  config.sources.foldl processSource st

/-- `monitorDestRouters`'s config loop over a finite sequence of
backend-config events. -/
def managerLoop (configs : List ConfigT) : ManagerState :=
  configs.foldl processConfig initialManagerState

/-- Observable actions of `monitorDestRouters`, in program order. -/
inductive ManagerEvent where
  | deleteExecutingRouter
  | deleteExecutingBatchRouter
  | startRouter (name : String) (flavor : RouterFlavor)
  deriving Repr, DecidableEq

/-- The action trace of one run of `monitorDestRouters` over a finite
sequence of config events: `routerFactory.RouterDB.DeleteExecuting()` and
`batchrouterFactory.RouterDB.DeleteExecuting()` run before the config
loop, which then starts instances. -/
def monitorTrace (configs : List ConfigT) : List ManagerEvent :=
  ManagerEvent.deleteExecutingRouter ::
    ManagerEvent.deleteExecutingBatchRouter ::
      (managerLoop configs).startedEvents.map (fun e => ManagerEvent.startRouter e.name e.flavor)

/-- How many router instances were started for a given definition name. -/
def startCount (trace : List StartEvent) (name : String) : Nat :=
  (trace.filter (fun e => e.name == name)).length

/-- Whether an instance for this definition name is registered in the map
the source would consult for it. -/
def registered (st : ManagerState) (name : String) : Bool :=
  if isBatchDestination name then st.dstToBatchRouter.contains name
  else st.dstToRouter.contains name

end manager

namespace jobsdb

/-- `jobsdb.CustomerQueue` of `datamanager.go`.  The four `JobsDB` handles
are embedded as opaque queue identifiers. -/
structure CustomerQueue where
  gatewayJobsdb : Nat
  routerJobsdb : Nat
  batchrouterJobsddb : Nat
  procerrorJobsdb : Nat
  deriving Repr, DecidableEq

/-- The `customerQueues` registry, embedded as an association list. -/
def lookupCustomer (customerQueues : List (String × CustomerQueue))
    (customer : String) : Option CustomerQueue :=
  (customerQueues.find? (fun p => p.1 == customer)).map (fun p => p.2)

/-- `jobsdb.getQueueForCustomer`.  `none` embeds the Go panics: the nil
dereference when the customer is not registered, and
`panic("Unknow queue")` for an unknown queue type. -/
def getQueueForCustomer (customerQueues : List (String × CustomerQueue))
    (customer queue : String) : Option Nat :=
  match lookupCustomer customerQueues customer with
  | none => none
  | some customerQueue =>
    if queue = "gw" then some customerQueue.gatewayJobsdb
    else if queue = "rt" then some customerQueue.routerJobsdb
    else if queue = "batch_rt" then some customerQueue.batchrouterJobsddb
    else if queue = "proc_error" then some customerQueue.procerrorJobsdb
    else none

/-- One `queue.Store(list)` call issued by `jobsdb.Store`: the per-customer
sub-list handed to the queue selected for that customer. -/
structure StoreOp where
  customer : String
  queue : Option Nat
  jobs : List JobT
  deriving Repr, DecidableEq

/-- The customer keys of `customerJobListMap` in `jobsdb.Store` (Go map
iteration order is unspecified; the embedding picks a canonical order of
the distinct customers). -/
def storeCustomers (jobList : List JobT) : List String :=
  (jobList.map (fun job => job.customer)).dedup

/-- `jobsdb.Store(jobList, queue)`: group the jobs by their `Customer`
(order within one customer preserved), issue one `Store` on that
customer's queue of the requested type per group, and return `nil`.
The second component is the returned error. -/
def Store (customerQueues : List (String × CustomerQueue))
    (jobList : List JobT) (queue : String) : List StoreOp × Option String :=
  ((storeCustomers jobList).map (fun customer =>
      { customer := customer
        queue := getQueueForCustomer customerQueues customer queue
        jobs := jobList.filter (fun job => job.customer == customer) }),
    none)

end jobsdb

namespace router

open jobsdb

/-- Where a picked-up job goes in the router's per-job dispatch: drained
with a terminal status and no adapter call, or delivered through the
destination adapter. -/
inductive RouterAction where
  | drain (status : JobStatusT)
  | deliver
  deriving Repr, DecidableEq

/-- Modelled from the spec: the router worker's expiry check
(`router/utils.JobRetention`) is not among the source files — only its
test is.  Per the spec, a job is `Expired` when its age exceeds
`jobRetention`. -/
def jobIsExpired (now jobRetention : Int) (job : JobT) : Bool :=
  now - job.createdAtUnix > jobRetention

/-- Modelled from the spec: the router pickup drain decision
(`readAndProcess` of package `router`) is not among the source files —
only its test is.  Per the spec, an expired job is scheduled `Aborted`
with reason `"job expired"` and HTTP-like code `410`, without invoking
the destination adapter and without counting an attempt; any other job
proceeds to delivery. -/
def routerPickupAction (now jobRetention : Int) (job : JobT) : RouterAction :=
  if jobIsExpired now jobRetention job then
    RouterAction.drain
      { jobID := job.jobID
        attemptNum := job.lastJobStatus.attemptNum
        jobState := Aborted
        execTime := now
        retryTime := now
        errorCode := "410"
        errorResponse := "\x7b\"reason\": \"job expired\"\x7d"
        parameters := "\x7b\x7d"
        workspaceId := job.workspaceId }
  else RouterAction.deliver

/-- Whether the destination adapter is invoked for a given action. -/
def adapterInvoked : RouterAction → Bool
  | RouterAction.drain _ => false
  | RouterAction.deliver => true

end router

namespace manager

/-- The flavor `monitorDestRouters` selects for a destination definition
name. -/
def flavorOfName (name : String) : RouterFlavor :=
  if isBatchDestination name then RouterFlavor.batch else RouterFlavor.std

/-- Invariant of `monitorDestRouters`'s state: every started instance has
the flavor its name selects, and a name has exactly one started instance
exactly when it is registered in its map. -/
def stateInv (st : ManagerState) : Prop :=
  (∀ e ∈ st.startedEvents, e.flavor = flavorOfName e.name) ∧
    ∀ name, startCount st.startedEvents name = if registered st name then 1 else 0

/-- A disabled destination with the (non-batch) definition name `"GA"`. -/
def destGADisabled : DestinationT := ⟨⟨"GA"⟩, false⟩

/-- A disabled source holding only the disabled `"GA"` destination. -/
def srcDisabled : SourceT := ⟨false, [destGADisabled]⟩

/-- A backend-config event whose only source and only destination are both
disabled. -/
def cfgDisabled : ConfigT := ⟨[srcDisabled]⟩

/-- A backend-config event with a single enabled `"GA"` destination. -/
def cfgGA : ConfigT := ⟨[⟨true, [⟨⟨"GA"⟩, true⟩]⟩]⟩

/-- A backend-config event with a single enabled `"S3"` (object storage)
destination. -/
def cfgS3 : ConfigT := ⟨[⟨true, [⟨⟨"S3"⟩, true⟩]⟩]⟩

end manager

namespace stash

open jobsdb

/-- A sample job status used by concrete witnesses. -/
def sampleStatus : JobStatusT :=
  { jobID := 7, attemptNum := 0, jobState := "", execTime := 0, retryTime := 0,
    errorCode := "", errorResponse := "", parameters := "", workspaceId := "w1" }

/-- A sample job used by concrete witnesses. -/
def sampleJob : JobT :=
  { jobID := 7, userID := "u1", customVal := "GA", workspaceId := "w1",
    customer := "c1", createdAtUnix := 0, lastJobStatus := sampleStatus }

/-- A second sample job, for a different customer. -/
def sampleJob2 : JobT :=
  { jobID := 8, userID := "u2", customVal := "GA", workspaceId := "w2",
    customer := "c2", createdAtUnix := 50,
    lastJobStatus := { sampleStatus with jobID := 8 } }

/-- A sample failed upload outcome used by concrete witnesses. -/
def sampleUploadErr : StoreErrorOutputT := { location := "", error := some "timeout" }

/-- A sample per-source transient flag: exactly the jobs of customer
`"c2"` are transient. -/
def sampleTransient (job : JobT) : Bool := job.customer == "c2"

end stash

namespace jobsdb

/-- A sample customer-queue registry for the customers `"c1"` and `"c2"`. -/
def sampleCustomerQueues : List (String × CustomerQueue) :=
  [("c1", ⟨1, 2, 3, 4⟩), ("c2", ⟨5, 6, 7, 8⟩)]

end jobsdb

namespace stash

theorem readErrJobStatusFor_attemptNum (canUpload : Bool)
    (transientApply : jobsdb.JobT → Bool) (now : Int) (job : jobsdb.JobT) :
    (readErrJobStatusFor canUpload transientApply now job).attemptNum =
      job.lastJobStatus.attemptNum + 1 := by
  unfold readErrJobStatusFor
  split <;> split <;> rfl

theorem setErrJobStatusFor_attemptNum (maxFailedCountForErrJob now : Int)
    (output : StoreErrorOutputT) (job : jobsdb.JobT) :
    (setErrJobStatusFor maxFailedCountForErrJob now output job).attemptNum =
      job.lastJobStatus.attemptNum + 1 := rfl

end stash

/-- C1: a job whose `createdAt` is older than `jobRetention` is drained:
its status is `Aborted` with error reason `"job expired"` and HTTP-like
code `410`, its `AttemptNum` is left unchanged, and the destination
adapter is not invoked for it. -/
theorem c1_expired_job_aborted (now jobRetention : Int) (job : jobsdb.JobT)
    (h : now - job.createdAtUnix > jobRetention) :
    ∃ status,
      router.routerPickupAction now jobRetention job = router.RouterAction.drain status ∧
        status.jobState = jobsdb.Aborted ∧
        status.errorCode = "410" ∧
        status.errorResponse = "\x7b\"reason\": \"job expired\"\x7d" ∧
        status.attemptNum = job.lastJobStatus.attemptNum ∧
        router.adapterInvoked (router.routerPickupAction now jobRetention job) = false := by
  have hb : router.jobIsExpired now jobRetention job = true := by
    simp only [router.jobIsExpired, decide_eq_true_eq]
    exact h
  unfold router.routerPickupAction
  rw [hb]
  simp [router.adapterInvoked]

theorem c1_expired_job_aborted_witness :
    (100 : Int) - stash.sampleJob.createdAtUnix > 10 ∧
      ∃ status,
        router.routerPickupAction 100 10 stash.sampleJob = router.RouterAction.drain status ∧
          status.jobState = jobsdb.Aborted ∧
          status.errorCode = "410" ∧
          status.errorResponse = "\x7b\"reason\": \"job expired\"\x7d" ∧
          status.attemptNum = stash.sampleJob.lastJobStatus.attemptNum ∧
          router.adapterInvoked (router.routerPickupAction 100 10 stash.sampleJob) = false :=
  ⟨by decide, c1_expired_job_aborted 100 10 stash.sampleJob (by decide)⟩

/-- C2: both status rows the error stash writes for a job — the row
written when the job is read from the `proc_error` queue and the terminal
row written after an upload attempt — carry an `AttemptNum` strictly
greater than the job's last recorded `AttemptNum`, so `AttemptNum` over
the job's status history is non-decreasing. -/
theorem c2_stash_attemptnum_monotone (canUpload : Bool)
    (transientApply : jobsdb.JobT → Bool) (maxFailedCountForErrJob now1 now2 : Int)
    (output : stash.StoreErrorOutputT) (job : jobsdb.JobT) :
    job.lastJobStatus.attemptNum <
        (stash.readErrJobStatusFor canUpload transientApply now1 job).attemptNum ∧
      job.lastJobStatus.attemptNum <
        (stash.setErrJobStatusFor maxFailedCountForErrJob now2 output job).attemptNum ∧
      List.Chain' (fun a b => a ≤ b)
        [job.lastJobStatus.attemptNum,
          (stash.readErrJobStatusFor canUpload transientApply now1 job).attemptNum,
          (stash.setErrJobStatusFor maxFailedCountForErrJob now2 output job).attemptNum] := by
  rw [stash.readErrJobStatusFor_attemptNum, stash.setErrJobStatusFor_attemptNum]
  refine ⟨by omega, by omega, ?_⟩
  simp only [List.chain'_cons, List.chain'_singleton, and_true]
  omega

/-- C6: after an upload attempt the error stash marks each job of the
batch `Succeeded` when the upload returned no error; on an upload error
it marks the job `Failed` with the attempt count bumped, unless the job
already has at least `maxFailedCountForErrJob` attempts, in which case it
marks it `Aborted`. -/
theorem c6_seterrjobstatus_states (maxFailedCountForErrJob now : Int)
    (output : stash.StoreErrorOutputT) (job : jobsdb.JobT) :
    (output.error = none →
      (stash.setErrJobStatusFor maxFailedCountForErrJob now output job).jobState =
        jobsdb.Succeeded) ∧
    (output.error ≠ none → job.lastJobStatus.attemptNum < maxFailedCountForErrJob →
      (stash.setErrJobStatusFor maxFailedCountForErrJob now output job).jobState =
          jobsdb.Failed ∧
        (stash.setErrJobStatusFor maxFailedCountForErrJob now output job).attemptNum =
          job.lastJobStatus.attemptNum + 1) ∧
    (output.error ≠ none → maxFailedCountForErrJob ≤ job.lastJobStatus.attemptNum →
      (stash.setErrJobStatusFor maxFailedCountForErrJob now output job).jobState =
        jobsdb.Aborted) := by
  obtain ⟨location, error⟩ := output
  cases error with
  | none =>
    refine ⟨fun _ => rfl, fun hne => absurd rfl hne, fun hne => absurd rfl hne⟩
  | some e =>
    refine ⟨fun hc => by simp at hc, fun _ hlt => ⟨?_, rfl⟩, fun _ hge => ?_⟩
    · show (if job.lastJobStatus.attemptNum ≥ maxFailedCountForErrJob then _ else _) = _
      rw [if_neg (by omega)]
    · show (if job.lastJobStatus.attemptNum ≥ maxFailedCountForErrJob then _ else _) = _
      rw [if_pos hge]

theorem c6_seterrjobstatus_states_witness :
    stash.sampleUploadErr.error ≠ none ∧
      stash.sampleJob.lastJobStatus.attemptNum < 3 ∧
      (stash.setErrJobStatusFor 3 0 stash.sampleUploadErr stash.sampleJob).jobState =
          jobsdb.Failed ∧
        (stash.setErrJobStatusFor 3 0 stash.sampleUploadErr stash.sampleJob).attemptNum =
          stash.sampleJob.lastJobStatus.attemptNum + 1 :=
  ⟨by decide, by decide,
    (c6_seterrjobstatus_states 3 0 stash.sampleUploadErr stash.sampleJob).2.1
      (by decide) (by decide)⟩

/-- C7: while uploading is possible, a job read from the `proc_error`
queue whose source is transient is marked `Aborted` and excluded from the
batch sent for upload, while a non-transient job is marked `Executing`
and included in the upload batch. -/
theorem c7_transient_jobs_aborted (transientApply : jobsdb.JobT → Bool) (now : Int)
    (combinedList : List jobsdb.JobT) (job : jobsdb.JobT) (hmem : job ∈ combinedList) :
    (transientApply job = true →
      (stash.readErrJobStatusFor true transientApply now job).jobState = jobsdb.Aborted ∧
        job ∉ stash.readErrJobsTickFiltered true transientApply combinedList) ∧
    (transientApply job = false →
      (stash.readErrJobStatusFor true transientApply now job).jobState = jobsdb.Executing ∧
        job ∈ stash.readErrJobsTickFiltered true transientApply combinedList) := by
  constructor <;> intro ht <;>
    simp [stash.readErrJobStatusFor, stash.readErrJobsTickFiltered, List.mem_filter,
      hmem, ht]

theorem c7_transient_jobs_aborted_witness :
    stash.sampleJob2 ∈ [stash.sampleJob, stash.sampleJob2] ∧
      stash.sampleTransient stash.sampleJob2 = true ∧
      (stash.readErrJobStatusFor true stash.sampleTransient 0 stash.sampleJob2).jobState =
          jobsdb.Aborted ∧
        stash.sampleJob2 ∉
          stash.readErrJobsTickFiltered true stash.sampleTransient
            [stash.sampleJob, stash.sampleJob2] :=
  ⟨by decide, by decide,
    (c7_transient_jobs_aborted stash.sampleTransient 0
        [stash.sampleJob, stash.sampleJob2] stash.sampleJob2 (by decide)).1 (by decide)⟩





/-- C8: for a non-empty batch, the file the error stash creates and
uploads is the gzip file at `tmpDir + localTmpDirName` followed by the
schema `ts.instance.firstId-lastId.uuid.json.gz`, where `firstId` and
`lastId` are the `JobID`s of the first and last jobs of the batch, `ts`
is the current unix time and `instance` the `INSTANCE_ID` value. -/
theorem c8_filename_schema (tmpDirPath : String) (nowUnix : Int)
    (instanceID uuid : String) (jobs : List jobsdb.JobT) (j0 jn : jobsdb.JobT)
    (h0 : jobs.head? = some j0) (hn : jobs.getLast? = some jn) :
    stash.storeErrorsGzipPathOfJobs tmpDirPath nowUnix instanceID uuid jobs =
      some (tmpDirPath ++ stash.localTmpDirName ++
        stash.fileNameSchemaSpec (toString nowUnix) instanceID
          (toString j0.jobID) (toString jn.jobID) uuid) := by
  unfold stash.storeErrorsGzipPathOfJobs
  rw [h0, hn]
  unfold stash.storeErrorsGzipPath stash.storeErrorsPath stash.fileNameSchemaSpec
  simp only [String.append_assoc, show (".json" ++ ".gz" : String) = ".json.gz" from rfl]

theorem c8_filename_schema_witness :
    ([stash.sampleJob, stash.sampleJob2] : List jobsdb.JobT).head? = some stash.sampleJob ∧
      ([stash.sampleJob, stash.sampleJob2] : List jobsdb.JobT).getLast? =
        some stash.sampleJob2 ∧
      stash.storeErrorsGzipPathOfJobs "/tmp" 1700000000 "inst-a" "uid-b"
          [stash.sampleJob, stash.sampleJob2] =
        some ("/tmp" ++ stash.localTmpDirName ++
          stash.fileNameSchemaSpec (toString (1700000000 : Int)) "inst-a"
            (toString stash.sampleJob.jobID) (toString stash.sampleJob2.jobID) "uid-b") :=
  ⟨rfl, rfl,
    c8_filename_schema "/tmp" 1700000000 "inst-a" "uid-b"
      [stash.sampleJob, stash.sampleJob2] stash.sampleJob stash.sampleJob2 rfl rfl⟩

/-- C9: every job list one iteration of `readErrJobsLoop` sends on
`errProcessQ` is non-empty, so `storeErrorsToObjectStorage`'s accesses of
`jobs[0]` and `jobs[len(jobs)-1]` when building the upload filename never
index out of bounds. -/
theorem c9_sent_batch_nonempty (canUpload : Bool)
    (transientApply : jobsdb.JobT → Bool) (combinedList sent : List jobsdb.JobT)
    (h : stash.readErrJobsTickSent canUpload transientApply combinedList = some sent) :
    sent ≠ [] ∧ sent.head?.isSome ∧ sent.getLast?.isSome ∧
      ∀ (tmpDirPath : String) (nowUnix : Int) (instanceID uuid : String),
        (stash.storeErrorsGzipPathOfJobs tmpDirPath nowUnix instanceID uuid sent).isSome := by
  unfold stash.readErrJobsTickSent at h
  dsimp only at h
  split at h
  case isFalse => cases h
  case isTrue hc =>
    have hsent : stash.readErrJobsTickFiltered canUpload transientApply combinedList
        = sent := by
      cases h
      rfl
    have hlen : 0 < sent.length := by
      rw [Bool.and_eq_true] at hc
      have := hc.2
      rw [hsent] at this
      simpa using this
    have hne : sent ≠ [] := by
      intro hnil
      rw [hnil] at hlen
      simp at hlen
    have hh : sent.head?.isSome := by
      cases sent with
      | nil => simp at hlen
      | cons a t => simp
    have hl : sent.getLast?.isSome := List.getLast?_isSome.mpr hne
    refine ⟨hne, hh, hl, ?_⟩
    intro tmpDirPath nowUnix instanceID uuid
    obtain ⟨a, ha⟩ := Option.isSome_iff_exists.mp hh
    obtain ⟨b, hb⟩ := Option.isSome_iff_exists.mp hl
    simp [stash.storeErrorsGzipPathOfJobs, ha, hb]

theorem c9_sent_batch_nonempty_witness :
    stash.readErrJobsTickSent true (fun _ => false) [stash.sampleJob] =
        some [stash.sampleJob] ∧
      ([stash.sampleJob] : List jobsdb.JobT) ≠ [] ∧
        ([stash.sampleJob] : List jobsdb.JobT).head?.isSome ∧
        ([stash.sampleJob] : List jobsdb.JobT).getLast?.isSome ∧
        ∀ (tmpDirPath : String) (nowUnix : Int) (instanceID uuid : String),
          (stash.storeErrorsGzipPathOfJobs tmpDirPath nowUnix instanceID uuid
            [stash.sampleJob]).isSome :=
  ⟨rfl, c9_sent_batch_nonempty true (fun _ => false) [stash.sampleJob] [stash.sampleJob] rfl⟩

namespace manager

theorem startCount_append (trace : List StartEvent) (e : StartEvent) (name : String) :
    startCount (trace ++ [e]) name =
      startCount trace name + if e.name = name then 1 else 0 := by
  unfold startCount
  rw [List.filter_append, List.length_append]
  by_cases h : e.name = name <;> simp [h]

theorem registered_processDestination (st : ManagerState) (destination : DestinationT)
    (name : String) :
    registered (processDestination st destination) name =
      (registered st name || name == destination.destinationDefinition.name) := by
  simp only [processDestination]
  by_cases hb : isBatchDestination destination.destinationDefinition.name
  · rw [if_pos hb]
    by_cases hc : destination.destinationDefinition.name ∈ st.dstToBatchRouter
    · by_cases hn : name = destination.destinationDefinition.name
      · subst hn
        simp [registered, hb, hc]
      · simp [hc, hn]
    · by_cases hn : name = destination.destinationDefinition.name
      · subst hn
        simp [registered, hb, hc, List.contains_cons]
      · simp only [registered, beq_iff_eq, hn]
        by_cases hnb : isBatchDestination name = true <;>
          simp [hc, hnb, List.contains_cons, hn]
  · rw [if_neg hb]
    by_cases hc : destination.destinationDefinition.name ∈ st.dstToRouter
    · by_cases hn : name = destination.destinationDefinition.name
      · subst hn
        simp [registered, hb, hc]
      · simp [hc, hn]
    · by_cases hn : name = destination.destinationDefinition.name
      · subst hn
        simp [registered, hb, hc, List.contains_cons]
      · simp only [registered, beq_iff_eq, hn]
        by_cases hnb : isBatchDestination name = true <;>
          simp [hc, hnb, List.contains_cons, hn]

theorem startedEvents_processDestination (st : ManagerState) (destination : DestinationT) :
    (processDestination st destination).startedEvents =
      if registered st destination.destinationDefinition.name then st.startedEvents
      else
        st.startedEvents ++
          [⟨destination.destinationDefinition.name,
            flavorOfName destination.destinationDefinition.name⟩] := by
  simp only [processDestination, registered, flavorOfName]
  by_cases hb : isBatchDestination destination.destinationDefinition.name
  · by_cases hc : destination.destinationDefinition.name ∈ st.dstToBatchRouter <;>
      simp [hb, hc]
  · by_cases hc : destination.destinationDefinition.name ∈ st.dstToRouter <;>
      simp [hb, hc]

theorem stateInv_initial : stateInv initialManagerState := by
  constructor
  · intro e he
    simp [initialManagerState] at he
  · intro name
    simp [startCount, registered, initialManagerState]

theorem stateInv_processDestination (st : ManagerState) (destination : DestinationT)
    (h : stateInv st) : stateInv (processDestination st destination) := by
  obtain ⟨hfl, hcnt⟩ := h
  constructor
  · intro e he
    rw [startedEvents_processDestination] at he
    by_cases hr : registered st destination.destinationDefinition.name
    · rw [if_pos hr] at he
      exact hfl e he
    · rw [if_neg hr, List.mem_append] at he
      rcases he with he | he
      · exact hfl e he
      · simp only [List.mem_singleton] at he
        subst he
        rfl
  · intro name
    rw [startedEvents_processDestination, registered_processDestination]
    by_cases hn : name = destination.destinationDefinition.name
    · subst hn
      by_cases hr : registered st destination.destinationDefinition.name
      · rw [if_pos hr]
        simp [hcnt, hr]
      · rw [if_neg hr, startCount_append]
        have hr' : registered st destination.destinationDefinition.name = false := by
          simpa using hr
        simp [hcnt, hr']
    · have hbeq : (name == destination.destinationDefinition.name) = false := by
        simp [hn]
      rw [hbeq, Bool.or_false]
      by_cases hr : registered st destination.destinationDefinition.name
      · rw [if_pos hr]
        exact hcnt name
      · rw [if_neg hr, startCount_append]
        have hn' : destination.destinationDefinition.name ≠ name := fun he => hn he.symm
        rw [if_neg hn', Nat.add_zero]
        exact hcnt name

theorem stateInv_foldl_destinations (destinations : List DestinationT) (st : ManagerState)
    (h : stateInv st) : stateInv (destinations.foldl processDestination st) := by
  induction destinations generalizing st with
  | nil => exact h
  | cons d ds ih => exact ih _ (stateInv_processDestination st d h)

theorem stateInv_processSource (st : ManagerState) (source : SourceT)
    (h : stateInv st) : stateInv (processSource st source) :=
  stateInv_foldl_destinations source.destinations st h

theorem stateInv_foldl_sources (sources : List SourceT) (st : ManagerState)
    (h : stateInv st) : stateInv (sources.foldl processSource st) := by
  induction sources generalizing st with
  | nil => exact h
  | cons s ss ih => exact ih _ (stateInv_processSource st s h)

theorem stateInv_processConfig (st : ManagerState) (config : ConfigT)
    (h : stateInv st) : stateInv (processConfig st config) :=
  stateInv_foldl_sources config.sources st h

theorem stateInv_managerLoop (configs : List ConfigT) : stateInv (managerLoop configs) := by
  unfold managerLoop
  have hrec : ∀ (cs : List ConfigT) (st : ManagerState),
      stateInv st → stateInv (cs.foldl processConfig st) := by
    intro cs
    induction cs with
    | nil => intro st h; exact h
    | cons c cs ih => intro st h; exact ih _ (stateInv_processConfig st c h)
  exact hrec configs initialManagerState stateInv_initial

theorem registered_foldl_destinations_mono (destinations : List DestinationT)
    (st : ManagerState) (name : String) (h : registered st name = true) :
    registered (destinations.foldl processDestination st) name = true := by
  induction destinations generalizing st with
  | nil => exact h
  | cons d ds ih =>
    apply ih
    rw [registered_processDestination, h, Bool.true_or]

theorem registered_of_mem_destinations (destinations : List DestinationT) :
    ∀ (st : ManagerState) (destination : DestinationT), destination ∈ destinations →
      registered (destinations.foldl processDestination st)
        destination.destinationDefinition.name = true := by
  induction destinations with
  | nil =>
    intro st destination hd
    cases hd
  | cons d ds ih =>
    intro st destination hd
    rcases List.mem_cons.mp hd with heq | hmem
    · subst heq
      rw [List.foldl_cons]
      apply registered_foldl_destinations_mono
      rw [registered_processDestination]
      simp
    · exact ih _ destination hmem

theorem registered_foldl_sources_mono (sources : List SourceT)
    (st : ManagerState) (name : String) (h : registered st name = true) :
    registered (sources.foldl processSource st) name = true := by
  induction sources generalizing st with
  | nil => exact h
  | cons s ss ih =>
    exact ih _ (registered_foldl_destinations_mono s.destinations st name h)

theorem registered_of_mem_sources (sources : List SourceT) :
    ∀ (st : ManagerState) (source : SourceT) (destination : DestinationT),
      source ∈ sources → destination ∈ source.destinations →
        registered (sources.foldl processSource st)
          destination.destinationDefinition.name = true := by
  induction sources with
  | nil =>
    intro st source destination hs _
    cases hs
  | cons s ss ih =>
    intro st source destination hs hd
    rcases List.mem_cons.mp hs with heq | hmem
    · subst heq
      rw [List.foldl_cons]
      apply registered_foldl_sources_mono
      exact registered_of_mem_destinations source.destinations st destination hd
    · exact ih _ source destination hmem hd

theorem registered_foldl_configs_mono (configs : List ConfigT)
    (st : ManagerState) (name : String) (h : registered st name = true) :
    registered (configs.foldl processConfig st) name = true := by
  induction configs generalizing st with
  | nil => exact h
  | cons c cs ih =>
    exact ih _ (registered_foldl_sources_mono c.sources st name h)

theorem registered_managerLoop_of_mem (configs : List ConfigT) :
    ∀ (config : ConfigT) (source : SourceT) (destination : DestinationT),
      config ∈ configs → source ∈ config.sources → destination ∈ source.destinations →
        registered (managerLoop configs) destination.destinationDefinition.name = true := by
  unfold managerLoop
  generalize initialManagerState = st
  induction configs generalizing st with
  | nil =>
    intro config source destination hc _ _
    cases hc
  | cons c cs ih =>
    intro config source destination hc hs hd
    rcases List.mem_cons.mp hc with heq | hmem
    · subst heq
      rw [List.foldl_cons]
      apply registered_foldl_configs_mono
      exact registered_of_mem_sources config.sources st source destination hs hd
    · exact ih _ config source destination hmem hs hd

theorem exists_startEvent_of_registered (configs : List ConfigT) (name : String)
    (h : registered (managerLoop configs) name = true) :
    ∃ e ∈ (managerLoop configs).startedEvents, e.name = name := by
  have hcnt := (stateInv_managerLoop configs).2 name
  rw [h, if_pos rfl] at hcnt
  have hpos : 0 < ((managerLoop configs).startedEvents.filter
      (fun e => e.name == name)).length := by
    unfold startCount at hcnt
    omega
  obtain ⟨e, he⟩ := List.exists_mem_of_length_pos hpos
  rw [List.mem_filter] at he
  exact ⟨e, he.1, by simpa using he.2⟩

end manager

/-- C4: over any sequence of backend-config events, at most one router
instance is started per destination definition name, and a started
instance is a batch router exactly when the name belongs to the
object-storage, warehouse or async destination lists. -/
theorem c4_at_most_one_router_per_name (configs : List manager.ConfigT) :
    (∀ name, manager.startCount (manager.managerLoop configs).startedEvents name ≤ 1) ∧
      ∀ e ∈ (manager.managerLoop configs).startedEvents,
        (e.flavor = manager.RouterFlavor.batch ↔
          manager.isBatchDestination e.name = true) := by
  obtain ⟨hfl, hcnt⟩ := manager.stateInv_managerLoop configs
  constructor
  · intro name
    rw [hcnt name]
    split <;> omega
  · intro e he
    rw [hfl e he]
    unfold manager.flavorOfName
    by_cases hb : manager.isBatchDestination e.name = true
    · simp [hb]
    · simp [hb]

theorem c4_at_most_one_router_per_name_witness :
    (⟨"S3", manager.RouterFlavor.batch⟩ : manager.StartEvent) ∈
        (manager.managerLoop [manager.cfgS3]).startedEvents ∧
      ((⟨"S3", manager.RouterFlavor.batch⟩ : manager.StartEvent).flavor =
          manager.RouterFlavor.batch ↔
        manager.isBatchDestination
          (⟨"S3", manager.RouterFlavor.batch⟩ : manager.StartEvent).name = true) :=
  ⟨by decide, (c4_at_most_one_router_per_name [manager.cfgS3]).2 _ (by decide)⟩

/-- C5: in every run of the monitor loop, `DeleteExecuting` is invoked on
both the router and batch-router job stores before any router instance is
created and started: every start event sits strictly after the two
crash-recovery events, which occupy positions 0 and 1 of the trace. -/
theorem c5_delete_executing_before_starts (configs : List manager.ConfigT) (k : Nat)
    (name : String) (flavor : manager.RouterFlavor)
    (h : (manager.monitorTrace configs).get? k =
      some (manager.ManagerEvent.startRouter name flavor)) :
    2 ≤ k ∧
      (manager.monitorTrace configs).get? 0 =
        some manager.ManagerEvent.deleteExecutingRouter ∧
      (manager.monitorTrace configs).get? 1 =
        some manager.ManagerEvent.deleteExecutingBatchRouter := by
  refine ⟨?_, rfl, rfl⟩
  match k with
  | 0 => simp [manager.monitorTrace] at h
  | 1 => simp [manager.monitorTrace] at h
  | (n + 2) => omega

theorem c5_delete_executing_before_starts_witness :
    (manager.monitorTrace [manager.cfgGA]).get? 2 =
        some (manager.ManagerEvent.startRouter "GA" manager.RouterFlavor.std) ∧
      (2 ≤ 2 ∧
        (manager.monitorTrace [manager.cfgGA]).get? 0 =
          some manager.ManagerEvent.deleteExecutingRouter ∧
        (manager.monitorTrace [manager.cfgGA]).get? 1 =
          some manager.ManagerEvent.deleteExecutingBatchRouter) :=
  ⟨by decide,
    c5_delete_executing_before_starts [manager.cfgGA] 2 "GA" manager.RouterFlavor.std
      (by decide)⟩

/-- C3 counterexample: in a config whose only source and only destination
are disabled, the manager still starts a router for the destination's
definition name, so a destination that is not enabled does cause a router
to start. -/
theorem c3_counterexample_disabled_destination_starts_router :
    (manager.managerLoop [manager.cfgDisabled]).startedEvents =
        [⟨"GA", manager.RouterFlavor.std⟩] ∧
      ∀ source ∈ manager.cfgDisabled.sources,
        ∀ destination ∈ source.destinations, destination.enabled = false := by
  constructor
  · decide
  · decide

/-- C3 (amended): for every backend-config event processed by the router
manager, a router (or batch-router) instance is started for every
destination observed in the event, regardless of the destination's (or
its source's) `Enabled` flag — the source never consults `Enabled`. -/
theorem c3_amended_every_destination_starts_router (configs : List manager.ConfigT)
    (config : manager.ConfigT) (source : manager.SourceT)
    (destination : manager.DestinationT) (hc : config ∈ configs)
    (hs : source ∈ config.sources) (hd : destination ∈ source.destinations) :
    manager.registered (manager.managerLoop configs)
        destination.destinationDefinition.name = true ∧
      ∃ e ∈ (manager.managerLoop configs).startedEvents,
        e.name = destination.destinationDefinition.name := by
  have hreg :=
    manager.registered_managerLoop_of_mem configs config source destination hc hs hd
  exact ⟨hreg, manager.exists_startEvent_of_registered configs _ hreg⟩

theorem c3_amended_every_destination_starts_router_witness :
    manager.cfgDisabled ∈ [manager.cfgDisabled] ∧
      manager.srcDisabled ∈ manager.cfgDisabled.sources ∧
      manager.destGADisabled ∈ manager.srcDisabled.destinations ∧
      (manager.registered (manager.managerLoop [manager.cfgDisabled])
          manager.destGADisabled.destinationDefinition.name = true ∧
        ∃ e ∈ (manager.managerLoop [manager.cfgDisabled]).startedEvents,
          e.name = manager.destGADisabled.destinationDefinition.name) :=
  ⟨by decide, by decide, by decide,
    c3_amended_every_destination_starts_router [manager.cfgDisabled] manager.cfgDisabled
      manager.srcDisabled manager.destGADisabled (by decide) (by decide) (by decide)⟩

namespace jobsdb

theorem count_filter_customer (c : String) (job : JobT) (l : List JobT) :
    (l.filter (fun j => j.customer == c)).count job =
      if job.customer = c then l.count job else 0 := by
  induction l with
  | nil => simp
  | cons a t ih =>
    by_cases hac : a.customer = c
    · rw [List.filter_cons_of_pos (by simp [hac])]
      rw [List.count_cons, List.count_cons, ih]
      by_cases hjc : job.customer = c
      · rw [if_pos hjc, if_pos hjc]
      · rw [if_neg hjc, if_neg hjc]
        have hne : (a == job) = false := by
          simp only [beq_eq_false_iff_ne, ne_eq]
          intro he
          rw [he] at hac
          exact hjc hac
        rw [hne]
        simp
    · rw [List.filter_cons_of_neg (by simp [hac])]
      rw [ih, List.count_cons]
      by_cases hjc : job.customer = c
      · rw [if_pos hjc, if_pos hjc]
        have hne : (a == job) = false := by
          simp only [beq_eq_false_iff_ne, ne_eq]
          intro he
          rw [he] at hac
          exact hac hjc
        rw [hne]
        simp
      · rw [if_neg hjc, if_neg hjc]

theorem sum_count_over_customers (jobList : List JobT) (job : JobT) (ks : List String)
    (hnd : ks.Nodup) (hcov : job ∈ jobList → job.customer ∈ ks) :
    (ks.map (fun c => (jobList.filter (fun j => j.customer == c)).count job)).sum =
      jobList.count job := by
  induction ks with
  | nil =>
    simp only [List.map_nil, List.sum_nil]
    symm
    apply List.count_eq_zero.mpr
    intro hmem
    have := hcov hmem
    simp at this
  | cons c ks ih =>
    rw [List.map_cons, List.sum_cons, count_filter_customer]
    by_cases hjc : job.customer = c
    · rw [if_pos hjc]
      have hzero :
          ((ks.map fun c' => (jobList.filter (fun j => j.customer == c')).count job)).sum
            = 0 := by
        apply List.sum_eq_zero
        intro x hx
        obtain ⟨c', hc', hxe⟩ := List.mem_map.mp hx
        rw [← hxe, count_filter_customer]
        have hne : job.customer ≠ c' := by
          intro he
          apply (List.nodup_cons.mp hnd).1
          rw [← hjc, he]
          exact hc'
        rw [if_neg hne]
      rw [hzero]
      simp
    · rw [if_neg hjc, Nat.zero_add]
      apply ih (List.nodup_cons.mp hnd).2
      intro hmem
      rcases List.mem_cons.mp (hcov hmem) with he | hm
      · exact absurd he hjc
      · exact hm

end jobsdb

/-- C10: when every job's `Customer` is registered in `customerQueues` and
the requested queue type is one of the four known ones,
`jobsdb.Store(jobList, queue)` returns `nil`, issues per-customer `Store`
calls each holding only jobs of that single customer, targets each call
at the requested queue type of that customer's own queue set, and stores
each job exactly once overall. -/
theorem c10_store_partitions_by_customer
    (customerQueues : List (String × jobsdb.CustomerQueue))
    (jobList : List jobsdb.JobT) (queue : String)
    (hreg : ∀ job ∈ jobList, (jobsdb.lookupCustomer customerQueues job.customer).isSome)
    (hq : queue = "gw" ∨ queue = "rt" ∨ queue = "batch_rt" ∨ queue = "proc_error") :
    (jobsdb.Store customerQueues jobList queue).2 = none ∧
      (∀ op ∈ (jobsdb.Store customerQueues jobList queue).1,
        ∀ job ∈ op.jobs, job.customer = op.customer) ∧
      (∀ op ∈ (jobsdb.Store customerQueues jobList queue).1,
        op.queue = jobsdb.getQueueForCustomer customerQueues op.customer queue ∧
          op.queue.isSome) ∧
      ∀ job : jobsdb.JobT,
        ((jobsdb.Store customerQueues jobList queue).1.map
            (fun op => op.jobs.count job)).sum = jobList.count job := by
  refine ⟨rfl, ?_, ?_, ?_⟩
  · intro op hop job hj
    obtain ⟨c, _, hce⟩ := List.mem_map.mp hop
    rw [← hce] at hj ⊢
    simp only at hj ⊢
    exact by simpa using (List.mem_filter.mp hj).2
  · intro op hop
    obtain ⟨c, hc, hce⟩ := List.mem_map.mp hop
    rw [← hce]
    refine ⟨rfl, ?_⟩
    have hcmem : c ∈ jobList.map (fun job => job.customer) := by
      unfold jobsdb.storeCustomers at hc
      exact List.mem_dedup.mp hc
    obtain ⟨j, hjmem, hje⟩ := List.mem_map.mp hcmem
    have hl : (jobsdb.lookupCustomer customerQueues c).isSome := by
      rw [← hje]
      exact hreg j hjmem
    obtain ⟨cq, hcq⟩ := Option.isSome_iff_exists.mp hl
    simp only [jobsdb.getQueueForCustomer, hcq]
    rcases hq with rfl | rfl | rfl | rfl <;> simp
  · intro job
    unfold jobsdb.Store
    simp only [List.map_map, Function.comp]
    exact jobsdb.sum_count_over_customers jobList job (jobsdb.storeCustomers jobList)
      (List.nodup_dedup _)
      (fun hmem => List.mem_dedup.mpr (List.mem_map.mpr ⟨job, hmem, rfl⟩))

theorem c10_store_partitions_by_customer_witness :
    (∀ job ∈ [stash.sampleJob, stash.sampleJob2],
        (jobsdb.lookupCustomer jobsdb.sampleCustomerQueues job.customer).isSome) ∧
      ("rt" = "gw" ∨ "rt" = "rt" ∨ "rt" = "batch_rt" ∨ "rt" = "proc_error") ∧
      ((jobsdb.Store jobsdb.sampleCustomerQueues [stash.sampleJob, stash.sampleJob2]
            "rt").2 = none ∧
        (∀ op ∈ (jobsdb.Store jobsdb.sampleCustomerQueues
            [stash.sampleJob, stash.sampleJob2] "rt").1,
          ∀ job ∈ op.jobs, job.customer = op.customer) ∧
        (∀ op ∈ (jobsdb.Store jobsdb.sampleCustomerQueues
            [stash.sampleJob, stash.sampleJob2] "rt").1,
          op.queue = jobsdb.getQueueForCustomer jobsdb.sampleCustomerQueues
              op.customer "rt" ∧
            op.queue.isSome) ∧
        ∀ job : jobsdb.JobT,
          ((jobsdb.Store jobsdb.sampleCustomerQueues [stash.sampleJob, stash.sampleJob2]
              "rt").1.map (fun op => op.jobs.count job)).sum =
            ([stash.sampleJob, stash.sampleJob2] : List jobsdb.JobT).count job) :=
  ⟨by decide, by decide,
    c10_store_partitions_by_customer jobsdb.sampleCustomerQueues
      [stash.sampleJob, stash.sampleJob2] "rt" (by decide) (by decide)⟩
